import Mathlib

/-!
Verification of the BoxVPS service orchestration scripts.

The Python sources keep three pieces of durable state:
  * `users.json`   : mapping username → user record (`service_manager.py`),
  * `stats.json`   : mapping username → traffic counters (`monitoring_manager.py`),
  * the xray config: a JSON document with a list of inbounds, each carrying a
    client list (`protocol_manager.py`).

Python `dict`s preserve insertion order, so each mapping is embedded as an
association list `List (String × _)`; updating an existing key replaces the
value in place, inserting a new key appends at the end, exactly as in CPython.
Operations of `ServiceManager` are embedded as pure state transformers that
additionally record the boolean results reported by `update_xray_users` and
the names of the external commands invoked.
-/

namespace Box

/-- One user record of `users.json` (the dict built in `add_user`).
`uuid := none` models the `'uuid'` key being absent, `banned_at := none`
models the key being absent or set to `None`. -/
structure UserData where
  password : String
  created_at : String
  quota : Option Int
  quota_used : Int
  banned : Bool
  locked : Bool
  last_login : Option String
  login_attempts : Int
  uuid : Option String
  banned_at : Option String
  deriving DecidableEq

/-- The user store: insertion-ordered mapping username → record. -/
abbrev Users := List (String × UserData)

/-- Traffic counters for one user in `stats.json`. -/
structure Traffic where
  upload : Int
  download : Int
  last_reset : String
  deriving DecidableEq

/-- The stats store: insertion-ordered mapping username → counters. -/
abbrev Stats := List (String × Traffic)

/-- Dict lookup `d.get(k)` / `d[k]`: first (and, for genuine dicts, only)
occurrence of the key. -/
def lookupKey {β : Type} : List (String × β) → String → Option β
  | [], _ => none
  | (k, v) :: rest, name => if k = name then some v else lookupKey rest name

/-- Dict membership test `k in d`. -/
def hasKey {β : Type} (l : List (String × β)) (name : String) : Bool :=
  (lookupKey l name).isSome

/-- Dict assignment `d[k] = v`: replace in place when the key exists,
append otherwise (CPython insertion-order semantics). -/
def setKey {β : Type} : List (String × β) → String → β → List (String × β)
  | [], name, v => [(name, v)]
  | (k, v') :: rest, name, v =>
    if k = name then (name, v) :: rest else (k, v') :: setKey rest name v

/-- Dict deletion `del d[k]`. -/
def removeKey {β : Type} : List (String × β) → String → List (String × β)
  | [], _ => []
  | (k, v) :: rest, name => if k = name then rest else (k, v) :: removeKey rest name

/-- `1024 * 1024 * 1024`, the GB→bytes factor of `check_user_quota`. -/
def GB : Int := 1024 * 1024 * 1024

/-- `MonitoringManager._get_user_quota`: `users.get(username, {}).get('quota')`. -/
def get_user_quota (users : Users) (username : String) : Option Int :=
  match lookupKey users username with
  | some u => u.quota
  | none => none

/-- `MonitoringManager.check_user_quota`: `True` when the user is missing from
the stats, has no quota, or `upload + download < quota * 1024^3`. -/
def check_user_quota (stats : Stats) (users : Users) (username : String) : Bool :=
  match lookupKey stats username with
  | none => true
  | some t =>
    match get_user_quota users username with
    | none => true
    | some q => t.upload + t.download < q * GB

/-- The spec's `is_over_quota` view of `check_user_quota`: the check reports
the user over quota exactly when it does not return `True`. -/
def is_over_quota (stats : Stats) (users : Users) (username : String) : Bool :=
  !check_user_quota stats users username

/-- Total recorded usage of a user, an absent stats entry counting as zero
(the default record returned by `MonitoringManager.get_user_traffic`). -/
def totalUsage (stats : Stats) (username : String) : Int :=
  match lookupKey stats username with
  | some t => t.upload + t.download
  | none => 0

/-- `MonitoringManager.update_user_traffic`: create a zeroed entry when the
user is absent, then add the deltas to the counters. -/
def update_user_traffic (stats : Stats) (username : String)
    (upload download : Int) (now : String) : Stats :=
  let stats1 :=
    if hasKey stats username then stats
    else stats ++ [(username, { upload := 0, download := 0, last_reset := now })]
  match lookupKey stats1 username with
  | some t =>
      setKey stats1 username
        { t with upload := t.upload + upload, download := t.download + download }
  | none => stats1

/-- `MonitoringManager.reset_user_traffic`: zero the counters and stamp
`last_reset` when the user has a stats entry; otherwise do nothing. -/
def reset_user_traffic (stats : Stats) (username : String) (now : String) : Stats :=
  match lookupKey stats username with
  | some t => setKey stats username { t with upload := 0, download := 0, last_reset := now }
  | none => stats

/-! ## The xray configuration artifact (`protocol_manager.py`) -/

/-- An inbound's protocol tag; `configure_xray` only ever creates the three
client-bearing ones, but `update_xray_users` matches on the tag, so other
tags pass through untouched. -/
inductive XProtocol where
  | vmess
  | vless
  | trojan
  | otherTag (name : String)
  deriving DecidableEq

/-- Whether `update_xray_users` rewrites the client list of an inbound with
this protocol tag. -/
def XProtocol.isClientBearing : XProtocol → Bool
  | .vmess => true
  | .vless => true
  | .trojan => true
  | .otherTag _ => false

/-- One entry of an inbound's `settings.clients` list, in the shape
`update_xray_users` builds per protocol. -/
inductive Client where
  | vmess (id : String) (alterId : Int)
  | vless (id : String)
  | trojan (password : String)
  deriving DecidableEq

/-- The identity token carried by a client entry (`id`, or `password` for
trojan — `update_xray_users` stores the uuid in both). -/
def clientToken : Client → String
  | .vmess id _ => id
  | .vless id => id
  | .trojan pw => pw

/-- One inbound of the xray config document. -/
structure Inbound where
  protocol : XProtocol
  port : Int
  clients : List Client
  deriving DecidableEq

/-- The xray config document, reduced to the fields `update_xray_users`
reads and writes. -/
structure XrayConfig where
  inbounds : List Inbound
  deriving DecidableEq

/-- The tokens appearing in an inbound's client list. -/
def inboundTokens (ib : Inbound) : List String :=
  ib.clients.map clientToken

/-- The list comprehension of `update_xray_users`: walk the users in
insertion order, skip banned ones, read `user['uuid']` for the rest.  A
non-banned user whose record has no `'uuid'` key raises `KeyError`, which
the surrounding `try` turns into failure of the whole update — embedded as
`none`. -/
def genUuids : Users → Option (List String)
  | [] => some []
  | (_, d) :: rest =>
    if d.banned then genUuids rest
    else
      match d.uuid with
      | none => none
      | some id => (genUuids rest).map (fun ids => id :: ids)

/-- Build the per-protocol client entries from the uuid list, matching the
three comprehensions of `update_xray_users`. -/
def clientsFor : XProtocol → List String → List Client
  | .vmess, ids => ids.map (fun id => Client.vmess id 0)
  | .vless, ids => ids.map Client.vless
  | .trojan, ids => ids.map Client.trojan
  | .otherTag _, _ => []

/-- Rewrite one inbound as `update_xray_users` does: replace the client list
for vmess/vless/trojan inbounds, leave other inbounds untouched. -/
def update_inbound (users : Users) (ib : Inbound) : Option Inbound :=
  match ib.protocol with
  | .otherTag _ => some ib
  | p => (genUuids users).map (fun ids => { ib with clients := clientsFor p ids })

/-- Option-valued map over a list, failing at the first failure — the
evaluation order of the loop in `update_xray_users`. -/
def mapOption {α β : Type} (f : α → Option β) : List α → Option (List β)
  | [] => some []
  | a :: rest =>
    match f a with
    | none => none
    | some b => (mapOption f rest).map (fun bs => b :: bs)

/-- `ProtocolManager.update_xray_users` on the in-memory document: rewrite
every inbound's client list from the user mapping.  `none` embeds the
function returning `False` with the config file left unchanged (the
exception path skips the save); `some cfg` embeds it returning `True`
after writing `cfg`. -/
def update_xray_users (cfg : XrayConfig) (users : Users) : Option XrayConfig :=
  (mapOption (update_inbound users) cfg.inbounds).map (fun ibs => { inbounds := ibs })

/-! ## `ServiceManager` operations -/

/-- The durable state a `ServiceManager` operation touches. -/
structure SysState where
  users : Users
  stats : Stats
  xray : XrayConfig
  deriving DecidableEq

/-- Outcome of one `ServiceManager` operation: the boolean returned to the
caller, the state afterwards, the results reported by the
`update_xray_users` calls made during the operation, and the external
commands spawned via `subprocess`. -/
structure OpResult where
  ok : Bool
  state : SysState
  xrayReports : List Bool
  sysCalls : List String
  deriving DecidableEq

/-- The early-return / exception outcome: `False` with nothing touched. -/
def failResult (st : SysState) : OpResult :=
  { ok := false, state := st, xrayReports := [], sysCalls := [] }

/-- Run `update_xray_users` against the stored artifact: on success the new
document is written, on failure the artifact is left as it was; either way
the boolean result is recorded (the callers in `service_manager.py` ignore
it). -/
def runXray (st : SysState) (users : Users) : XrayConfig × List Bool :=
  match update_xray_users st.xray users with
  | some cfg => (cfg, [true])
  | none => (st.xray, [false])

/-- `ServiceManager.add_user`. -/
def add_user (st : SysState) (username password service : String)
    (quota : Option Int) (now freshUuid : String) : OpResult :=
  if hasKey st.users username then failResult st
  else
    let u : UserData :=
      { password := password, created_at := now, quota := quota, quota_used := 0,
        banned := false, locked := false, last_login := none, login_attempts := 0,
        uuid := if service = "xray" then some freshUuid else none,
        banned_at := none }
    let users1 := st.users ++ [(username, u)]
    let calls := if service = "ssh" then ["useradd", "chpasswd"] else []
    let xr := if service = "xray" then runXray st users1 else (st.xray, [])
    let stats1 := update_user_traffic st.stats username 0 0 now
    { ok := true, state := { users := users1, stats := stats1, xray := xr.1 },
      xrayReports := xr.2, sysCalls := calls }

/-- `ServiceManager.delete_user`. -/
def delete_user (st : SysState) (username : String) (now : String) : OpResult :=
  if hasKey st.users username then
    let users1 := removeKey st.users username
    let xr := runXray st users1
    let stats1 := reset_user_traffic st.stats username now
    { ok := true, state := { users := users1, stats := stats1, xray := xr.1 },
      xrayReports := xr.2, sysCalls := ["userdel"] }
  else failResult st

/-- `ServiceManager.ban_user`: sets `banned := True` and stamps `banned_at`
unconditionally, then reapplies the xray artifact when `service == 'xray'`. -/
def ban_user (st : SysState) (username service now : String) : OpResult :=
  match lookupKey st.users username with
  | none => failResult st
  | some u =>
    let users1 := setKey st.users username { u with banned := true, banned_at := some now }
    let calls := if service = "ssh" then ["fail2ban-client"] else []
    let xr := if service = "xray" then runXray st users1 else (st.xray, [])
    { ok := true, state := { users := users1, stats := st.stats, xray := xr.1 },
      xrayReports := xr.2, sysCalls := calls }

/-- `ServiceManager.unban_user`. -/
def unban_user (st : SysState) (username service : String) : OpResult :=
  match lookupKey st.users username with
  | none => failResult st
  | some u =>
    let users1 := setKey st.users username { u with banned := false, banned_at := none }
    let calls := if service = "ssh" then ["fail2ban-client"] else []
    let xr := if service = "xray" then runXray st users1 else (st.xray, [])
    { ok := true, state := { users := users1, stats := st.stats, xray := xr.1 },
      xrayReports := xr.2, sysCalls := calls }

/-- `ServiceManager.set_quota`: the `service` argument is accepted and
never used. -/
def set_quota (st : SysState) (username service : String) (quota : Int) : OpResult :=
  match lookupKey st.users username with
  | none => failResult st
  | some u =>
    { ok := true,
      state := { users := setKey st.users username { u with quota := some quota },
                 stats := st.stats, xray := st.xray },
      xrayReports := [], sysCalls := [] }

/-- `ServiceManager.change_uuid`: assigns a fresh uuid to any existing user
and reapplies the xray artifact. -/
def change_uuid (st : SysState) (username freshUuid : String) : OpResult :=
  match lookupKey st.users username with
  | none => failResult st
  | some u =>
    let users1 := setKey st.users username { u with uuid := some freshUuid }
    let xr := runXray st users1
    { ok := true, state := { users := users1, stats := st.stats, xray := xr.1 },
      xrayReports := xr.2, sysCalls := [] }

/-! ## Durable-write mechanism (`_save_users` / `_save_stats`) -/

/-- Filesystem operations relevant to the write-path of the stores. -/
inductive FsOp where
  | openTruncate (path : String)
  | writeStr (path : String) (content : String)
  | writeTempFile (path : String) (content : String)
  | rename (src : String) (dst : String)
  deriving DecidableEq

/-- Whether a filesystem operation is a rename. -/
def FsOp.isRename : FsOp → Bool
  | .rename _ _ => true
  | _ => false

/-- The operation trace of `ServiceManager._save_users`:
`open(self.users_file, 'w')` followed by `json.dump(users, f, indent=4)` —
an in-place truncate-and-write of the canonical path. -/
def save_users_ops (path content : String) : List FsOp :=
  [FsOp.openTruncate path, FsOp.writeStr path content]

/-- The operation trace of `MonitoringManager._save_stats`: same in-place
truncate-and-write. -/
def save_stats_ops (path content : String) : List FsOp :=
  [FsOp.openTruncate path, FsOp.writeStr path content]

/-! ## Derived views used by the theorems -/

/-- The uuid carried by a user's record, `none` when the user is absent or
the record has no `'uuid'` key. -/
def uuidOf (users : Users) (username : String) : Option String :=
  match lookupKey users username with
  | some d => d.uuid
  | none => none

/-- The `banned_at` field of a user's record, `none` when absent or null. -/
def bannedAtOf (users : Users) (username : String) : Option String :=
  match lookupKey users username with
  | some d => d.banned_at
  | none => none

/-- The `banned` flag of a user's record (`false` when the user is absent). -/
def bannedOf (users : Users) (username : String) : Bool :=
  match lookupKey users username with
  | some d => d.banned
  | none => false

/-- The client list the spec prescribes for an identity-bearing backend:
filter to not-banned and backend-applicable (identity token present),
project to the token, in insertion order. -/
def specClientTokens (users : Users) : List String :=
  (users.filter (fun p => !p.2.banned && p.2.uuid.isSome)).map
    (fun p => p.2.uuid.getD "")

/-- The inbound the spec-prescribed generation produces: client-bearing
inbounds get `specClientTokens` in protocol shape, others are untouched. -/
def expectedInbound (users : Users) (ib : Inbound) : Inbound :=
  match ib.protocol with
  | .otherTag _ => ib
  | p => { ib with clients := clientsFor p (specClientTokens users) }

/-! ## Association-list lemmas -/

theorem setKey_eq_of_pos {β : Type} (k0 : String) (v0 : β) (rest : List (String × β))
    (k : String) (v : β) (h : k0 = k) :
    setKey ((k0, v0) :: rest) k v = (k, v) :: rest := by
  simp [setKey, h]

theorem setKey_eq_of_neg {β : Type} (k0 : String) (v0 : β) (rest : List (String × β))
    (k : String) (v : β) (h : ¬k0 = k) :
    setKey ((k0, v0) :: rest) k v = (k0, v0) :: setKey rest k v := by
  simp [setKey, h]

theorem lookupKey_setKey_self {β : Type} (l : List (String × β)) (k : String) (v : β) :
    lookupKey (setKey l k v) k = some v := by
  induction l with
  | nil => simp [setKey, lookupKey]
  | cons head rest ih =>
    obtain ⟨k0, v0⟩ := head
    by_cases h : k0 = k
    · simp [setKey, h, lookupKey]
    · simp [setKey, h, lookupKey, ih]

theorem lookupKey_setKey_ne {β : Type} (l : List (String × β)) (k k' : String) (v : β)
    (h : k' ≠ k) : lookupKey (setKey l k v) k' = lookupKey l k' := by
  have hne : k ≠ k' := fun hh => h hh.symm
  induction l with
  | nil => simp [setKey, lookupKey, hne]
  | cons head rest ih =>
    obtain ⟨k0, v0⟩ := head
    by_cases h0 : k0 = k
    · subst h0
      simp [setKey, lookupKey, hne]
    · simp [setKey, h0, lookupKey, ih]

theorem self_mem_setKey {β : Type} (l : List (String × β)) (k : String) (v : β) :
    (k, v) ∈ setKey l k v := by
  induction l with
  | nil => simp [setKey]
  | cons head rest ih =>
    obtain ⟨k0, v0⟩ := head
    by_cases h : k0 = k
    · simp [setKey, h]
    · simp only [setKey, if_neg h]
      exact List.mem_cons_of_mem _ ih

theorem mem_setKey_of_nodup {β : Type} {l : List (String × β)}
    (hnd : (l.map Prod.fst).Nodup) {k : String} {v : β} {p : String × β}
    (hp : p ∈ setKey l k v) : p = (k, v) ∨ (p ∈ l ∧ p.1 ≠ k) := by
  induction l with
  | nil =>
    left
    simpa [setKey] using hp
  | cons head rest ih =>
    obtain ⟨k0, v0⟩ := head
    have hnd2 : (rest.map Prod.fst).Nodup := (List.nodup_cons.mp (by simpa using hnd)).2
    have hk0 : k0 ∉ rest.map Prod.fst := (List.nodup_cons.mp (by simpa using hnd)).1
    by_cases h : k0 = k
    · rw [setKey_eq_of_pos k0 v0 rest k v h] at hp
      rcases List.mem_cons.mp hp with h1 | h1
      · left; exact h1
      · right
        refine ⟨List.mem_cons_of_mem _ h1, ?_⟩
        intro hcontra
        apply hk0
        rw [h, ← hcontra]
        exact List.mem_map_of_mem Prod.fst h1
    · rw [setKey_eq_of_neg k0 v0 rest k v h] at hp
      rcases List.mem_cons.mp hp with h1 | h1
      · right
        exact ⟨by simp [h1], by simp [h1, h]⟩
      · rcases ih hnd2 h1 with h2 | h2
        · left; exact h2
        · right; exact ⟨List.mem_cons_of_mem _ h2.1, h2.2⟩

theorem lookupKey_append_of_none {β : Type} {l1 : List (String × β)} {k : String}
    (h : lookupKey l1 k = none) (l2 : List (String × β)) :
    lookupKey (l1 ++ l2) k = lookupKey l2 k := by
  induction l1 with
  | nil => simp
  | cons head rest ih =>
    obtain ⟨k0, v0⟩ := head
    rw [lookupKey] at h
    by_cases hk : k0 = k
    · rw [if_pos hk] at h
      simp at h
    · rw [if_neg hk] at h
      rw [List.cons_append, lookupKey, if_neg hk]
      exact ih h

/-! ## `mapOption` lemmas -/

theorem mapOption_eq_some_of_forall {α β : Type} {f : α → Option β} {g : α → β} :
    ∀ {l : List α}, (∀ a ∈ l, f a = some (g a)) → mapOption f l = some (l.map g) := by
  intro l
  induction l with
  | nil => intro _; rfl
  | cons a rest ih =>
    intro h
    rw [mapOption, h a (List.mem_cons_self _ _),
      ih (fun b hb => h b (List.mem_cons_of_mem _ hb))]
    rfl

theorem mem_of_mapOption {α β : Type} {f : α → Option β} :
    ∀ {l : List α} {l' : List β}, mapOption f l = some l' →
      ∀ b ∈ l', ∃ a ∈ l, f a = some b := by
  intro l
  induction l with
  | nil =>
    intro l' h b hb
    simp [mapOption] at h
    subst h
    simp at hb
  | cons a rest ih =>
    intro l' h b hb
    rw [mapOption] at h
    cases hfa : f a with
    | none => rw [hfa] at h; simp at h
    | some c =>
      rw [hfa] at h
      cases hrest : mapOption f rest with
      | none => rw [hrest] at h; simp at h
      | some bs =>
        rw [hrest] at h
        simp at h
        rw [← h] at hb
        rcases List.mem_cons.mp hb with h1 | h1
        · exact ⟨a, List.mem_cons_self _ _, by rw [h1]; exact hfa⟩
        · obtain ⟨a2, ha2, hfa2⟩ := ih hrest b h1
          exact ⟨a2, List.mem_cons_of_mem _ ha2, hfa2⟩

theorem mapOption_idem {α : Type} {f : α → Option α}
    (hf : ∀ a b, f a = some b → f b = some b) :
    ∀ {l l' : List α}, mapOption f l = some l' → mapOption f l' = some l' := by
  intro l
  induction l with
  | nil =>
    intro l' h
    simp [mapOption] at h
    subst h
    rfl
  | cons a rest ih =>
    intro l' h
    rw [mapOption] at h
    cases hfa : f a with
    | none => rw [hfa] at h; simp at h
    | some b =>
      rw [hfa] at h
      cases hrest : mapOption f rest with
      | none => rw [hrest] at h; simp at h
      | some bs =>
        rw [hrest] at h
        simp at h
        rw [← h, mapOption, hf a b hfa, ih hrest]
        rfl

/-! ## Client-list generation lemmas -/

theorem genUuids_some_eq : ∀ {users : Users} {ids : List String},
    genUuids users = some ids → ids = specClientTokens users := by
  intro users
  induction users with
  | nil =>
    intro ids h
    simp [genUuids] at h
    simp [specClientTokens, ← h]
  | cons head rest ih =>
    obtain ⟨k, d⟩ := head
    intro ids h
    by_cases hb : d.banned
    · rw [genUuids, if_pos hb] at h
      rw [ih h]
      simp [specClientTokens, hb]
    · rw [genUuids, if_neg hb] at h
      cases hu : d.uuid with
      | none => rw [hu] at h; simp at h
      | some id =>
        rw [hu] at h
        cases hrest : genUuids rest with
        | none => rw [hrest] at h; simp at h
        | some ids0 =>
          rw [hrest] at h
          simp at h
          rw [← h, ih hrest]
          simp [specClientTokens, hb, hu]

theorem genUuids_eq_spec : ∀ {users : Users},
    (∀ p ∈ users, p.2.banned = false → p.2.uuid.isSome = true) →
    genUuids users = some (specClientTokens users) := by
  intro users
  induction users with
  | nil => intro _; rfl
  | cons head rest ih =>
    obtain ⟨k, d⟩ := head
    intro h
    have hrest := fun p hp => h p (List.mem_cons_of_mem _ hp)
    by_cases hb : d.banned
    · rw [genUuids, if_pos hb, ih hrest]
      simp [specClientTokens, hb]
    · have hd : d.uuid.isSome = true :=
        h (k, d) (List.mem_cons_self _ _) (by simpa using hb)
      obtain ⟨id, hu⟩ := Option.isSome_iff_exists.mp hd
      rw [genUuids, if_neg hb, hu, ih hrest]
      simp [specClientTokens, hb, hu]

theorem mem_specClientTokens {users : Users} {tok : String} :
    tok ∈ specClientTokens users ↔
      ∃ p ∈ users, p.2.banned = false ∧ p.2.uuid = some tok := by
  unfold specClientTokens
  simp only [List.mem_map, List.mem_filter, Bool.and_eq_true, Bool.not_eq_true']
  constructor
  · rintro ⟨p, ⟨hp, hb, hs⟩, hf⟩
    obtain ⟨x, hx⟩ := Option.isSome_iff_exists.mp hs
    refine ⟨p, hp, hb, ?_⟩
    rw [hx]
    rw [hx] at hf
    simp at hf
    rw [hf]
  · rintro ⟨p, hp, hb, hu⟩
    exact ⟨p, ⟨hp, hb, by simp [hu]⟩, by simp [hu]⟩

theorem tokens_of_update_inbound {users : Users} {ib0 ib : Inbound}
    (h : update_inbound users ib0 = some ib)
    (hcb : ib.protocol.isClientBearing = true) :
    ∃ ids, genUuids users = some ids ∧ inboundTokens ib = ids := by
  obtain ⟨pr, po, cl⟩ := ib0
  cases pr with
  | otherTag s =>
    simp [update_inbound] at h
    rw [← h] at hcb
    simp [XProtocol.isClientBearing] at hcb
  | vmess =>
    cases hg : genUuids users with
    | none => simp [update_inbound, hg] at h
    | some ids =>
      simp [update_inbound, hg] at h
      refine ⟨ids, rfl, ?_⟩
      rw [← h]
      simp [inboundTokens, clientsFor, Function.comp_def, clientToken]
  | vless =>
    cases hg : genUuids users with
    | none => simp [update_inbound, hg] at h
    | some ids =>
      simp [update_inbound, hg] at h
      refine ⟨ids, rfl, ?_⟩
      rw [← h]
      simp [inboundTokens, clientsFor, Function.comp_def, clientToken]
  | trojan =>
    cases hg : genUuids users with
    | none => simp [update_inbound, hg] at h
    | some ids =>
      simp [update_inbound, hg] at h
      refine ⟨ids, rfl, ?_⟩
      rw [← h]
      simp [inboundTokens, clientsFor, Function.comp_def, clientToken]

theorem tokens_after_success {cfg : XrayConfig} {users1 : Users} {c : XrayConfig}
    (hx : update_xray_users cfg users1 = some c) {ib : Inbound}
    (hib : ib ∈ c.inbounds) (hcb : ib.protocol.isClientBearing = true) :
    inboundTokens ib = specClientTokens users1 := by
  rw [update_xray_users] at hx
  cases hm : mapOption (update_inbound users1) cfg.inbounds with
  | none => rw [hm] at hx; simp at hx
  | some ibs =>
    rw [hm] at hx
    simp at hx
    have hib2 : ib ∈ ibs := by rw [← hx] at hib; exact hib
    obtain ⟨ib0, _, hib0⟩ := mem_of_mapOption hm ib hib2
    obtain ⟨ids, hg, htoks⟩ := tokens_of_update_inbound hib0 hcb
    rw [htoks, genUuids_some_eq hg]

theorem runXray_reports_true {st : SysState} {users1 : Users}
    (h : (runXray st users1).2 = [true]) :
    update_xray_users st.xray users1 = some (runXray st users1).1 := by
  cases hx : update_xray_users st.xray users1 with
  | none => rw [runXray, hx] at h; simp at h
  | some c => simp [runXray, hx]

/-! ## Concrete states used by counterexamples and witnesses -/

/-- A fresh xray-created user record (`add_user` with service `'xray'`). -/
def udXray : UserData :=
  { password := "pw", created_at := "t0", quota := none, quota_used := 0,
    banned := false, locked := false, last_login := none, login_attempts := 0,
    uuid := some "B", banned_at := none }

/-- A fresh ssh-created user record (`add_user` with service `'ssh'`):
no `'uuid'` key. -/
def udSsh : UserData :=
  { password := "pw2", created_at := "t0", quota := none, quota_used := 0,
    banned := false, locked := false, last_login := none, login_attempts := 0,
    uuid := none, banned_at := none }

/-- A record with `quota` set to `0` (reachable via `set_quota(u, s, 0)`). -/
def udQuota0 : UserData :=
  { password := "pw", created_at := "t0", quota := some 0, quota_used := 0,
    banned := false, locked := false, last_login := none, login_attempts := 0,
    uuid := none, banned_at := none }

/-- A record with `quota := 1` GB. -/
def udQuota1 : UserData :=
  { password := "pw", created_at := "t0", quota := some 1, quota_used := 0,
    banned := false, locked := false, last_login := none, login_attempts := 0,
    uuid := none, banned_at := none }

/-- An already-banned record with a recorded `banned_at`. -/
def udBanned : UserData :=
  { password := "pw", created_at := "t0", quota := none, quota_used := 0,
    banned := true, locked := false, last_login := none, login_attempts := 0,
    uuid := none, banned_at := some "t0" }

/-- An xray config with one vmess inbound and no clients yet. -/
def exCfgV : XrayConfig :=
  { inbounds := [{ protocol := XProtocol.vmess, port := 443, clients := [] }] }

/-- A store holding one xray user and one ssh user, both active. -/
def exUsersMix : Users := [("bob", udXray), ("carol", udSsh)]

/-- System state with the mixed store and the vmess inbound. -/
def exStMix : SysState := { users := exUsersMix, stats := [], xray := exCfgV }

/-- Empty system state. -/
def stEmpty : SysState := { users := [], stats := [], xray := { inbounds := [] } }

/-- State holding the single user `"a"` (an xray record). -/
def stOneUser : SysState :=
  { users := [("a", udXray)], stats := [], xray := { inbounds := [] } }

/-- State holding only the already-banned user `"a"`. -/
def stBanned : SysState :=
  { users := [("a", udBanned)], stats := [], xray := { inbounds := [] } }

/-- State holding only the xray user `"bob"`, with the vmess inbound. -/
def stBob : SysState := { users := [("bob", udXray)], stats := [], xray := exCfgV }

/-! ## C1 — operation success vs. backend apply result -/

/-- C1 counterexample: in `exStMix`, banning `"bob"` for service `"xray"`
makes the backend apply fail (`update_xray_users` reports `False`, because
the active ssh user has no uuid), yet `ban_user` still returns success to
the caller.  This refutes the claim that a success result is returned only
when every affected backend apply reported success. -/
theorem C1_counterexample :
    (ban_user exStMix "bob" "xray" "t1").ok = true
  ∧ (ban_user exStMix "bob" "xray" "t1").xrayReports = [false] := by
  exact ⟨rfl, rfl⟩

/-- C1 amended: each mutating operation's boolean result is decided by
validation alone (target present, or username free for `add_user`); the
results reported by the backend applies are ignored, so a failed
`update_xray_users` does not prevent the operation from reporting
success. -/
theorem C1_success_ignores_backend_result (st : SysState)
    (username password service now freshUuid : String) (quota : Option Int) :
    ((add_user st username password service quota now freshUuid).ok
        = !hasKey st.users username)
  ∧ ((delete_user st username now).ok = hasKey st.users username)
  ∧ ((ban_user st username service now).ok = hasKey st.users username)
  ∧ ((unban_user st username service).ok = hasKey st.users username) := by
  refine ⟨?_, ?_, ?_, ?_⟩
  · by_cases h : hasKey st.users username
    · simp [add_user, h, failResult]
    · simp [add_user, h, failResult]
  · by_cases h : hasKey st.users username
    · simp [delete_user, h, failResult]
    · simp [delete_user, h, failResult]
  · cases hl : lookupKey st.users username with
    | none => simp [ban_user, hl, failResult, hasKey]
    | some u => simp [ban_user, hl, failResult, hasKey]
  · cases hl : lookupKey st.users username with
    | none => simp [unban_user, hl, failResult, hasKey]
    | some u => simp [unban_user, hl, failResult, hasKey]

/-! ## C2 — quota boundary -/

/-- C2 counterexample: the user `"a"` has the quota `0` set and zero usage,
so `usage ≥ quota * 2^30` holds (`0 ≥ 0`), yet the check reports the user
not over quota, because a user absent from the stats file is reported
under-quota before the quota is even read. -/
theorem C2_counterexample :
    get_user_quota [("a", udQuota0)] "a" = some 0
  ∧ totalUsage [] "a" = 0
  ∧ (0 : Int) * GB ≤ totalUsage [] "a"
  ∧ is_over_quota [] [("a", udQuota0)] "a" = false := by
  refine ⟨rfl, rfl, ?_, rfl⟩
  norm_num [totalUsage, lookupKey]

/-- C2 amended: for every user with a positive quota `q` set, the check
reports over-quota exactly when `upload + download ≥ q * 2^30` (with an
absent stats entry counting as zero usage); with no quota set it never
reports over-quota. -/
theorem C2_quota_boundary :
    (∀ (stats : Stats) (users : Users) (username : String) (q : Int),
        get_user_quota users username = some q → 1 ≤ q →
        (is_over_quota stats users username = true ↔
          q * GB ≤ totalUsage stats username))
  ∧ (∀ (stats : Stats) (users : Users) (username : String),
        get_user_quota users username = none →
        is_over_quota stats users username = false) := by
  constructor
  · intro stats users username q hq hpos
    have hgb : (0 : Int) < GB := by norm_num [GB]
    have hqgb : (0 : Int) < q * GB := mul_pos (lt_of_lt_of_le one_pos hpos) hgb
    unfold is_over_quota check_user_quota totalUsage
    cases hl : lookupKey stats username with
    | none =>
      simp
      exact hqgb
    | some t =>
      rw [hq]
      simp [not_lt]
  · intro stats users username hq
    unfold is_over_quota check_user_quota
    cases hl : lookupKey stats username with
    | none => rfl
    | some t => simp [hq]

/-- C2 witness: with quota `1` GB and usage exactly `2^30` bytes the check
reports over-quota (instantiating the amended theorem). -/
theorem C2_witness :
    is_over_quota [("b", { upload := 1073741824, download := 0, last_reset := "t" })]
      [("b", udQuota1)] "b" = true :=
  (C2_quota_boundary.1
    [("b", { upload := 1073741824, download := 0, last_reset := "t" })]
    [("b", udQuota1)] "b" 1 rfl (by norm_num)).mpr (by decide)

/-! ## C5 — duplicate add is rejected without side effects -/

/-- C5: `add_user` with a username already present returns `False` and
leaves the whole state (user store, stats, xray artifact) unchanged, with
no backend apply and no external command. -/
theorem C5_duplicate_add_rejected (st : SysState)
    (username password service now freshUuid : String) (quota : Option Int)
    (h : hasKey st.users username = true) :
    add_user st username password service quota now freshUuid =
      { ok := false, state := st, xrayReports := [], sysCalls := [] } := by
  simp [add_user, h, failResult]

/-- C5 witness: adding `"a"` again over `stOneUser` is rejected with the
state untouched. -/
theorem C5_witness :
    add_user stOneUser "a" "pw9" "xray" none "t9" "u9" =
      { ok := false, state := stOneUser, xrayReports := [], sysCalls := [] } :=
  C5_duplicate_add_rejected stOneUser "a" "pw9" "xray" "t9" "u9" none (by decide)

/-! ## C6 — durable-write mechanism -/

/-- C6 counterexample: the write trace of `_save_users` (and `_save_stats`)
contains no rename at all and opens the canonical path in truncate mode,
refuting the claim that the stores are written via
write-temp-then-atomic-rename. -/
theorem C6_counterexample :
    ((save_users_ops "/etc/boxvps/data/users.json" "data").all
        (fun op => !op.isRename)) = true
  ∧ FsOp.openTruncate "/etc/boxvps/data/users.json" ∈
      save_users_ops "/etc/boxvps/data/users.json" "data"
  ∧ ((save_stats_ops "/etc/boxvps/data/stats.json" "data").all
        (fun op => !op.isRename)) = true := by
  refine ⟨rfl, ?_, rfl⟩
  simp [save_users_ops]

/-- C6 amended: every durable write of the user store and of the stats
store truncates the canonical file in place and rewrites it; no temporary
file and no rename is involved, so an interrupted write can leave a
half-written file at the canonical path. -/
theorem C6_in_place_write (path content : String) :
    save_users_ops path content = [FsOp.openTruncate path, FsOp.writeStr path content]
  ∧ save_stats_ops path content = [FsOp.openTruncate path, FsOp.writeStr path content]
  ∧ ((save_users_ops path content).all (fun op => !op.isRename)) = true := by
  exact ⟨rfl, rfl, rfl⟩

/-! ## C7 — identity-token presence -/

/-- C7 counterexample: `"a"` is created with service `"ssh"` (no uuid), yet
a subsequent `change_uuid` attaches a uuid to it — refuting the claim that
no operation attaches an identity token to a user created for a backend
type that does not require one. -/
theorem C7_counterexample :
    uuidOf (add_user stEmpty "a" "pw" "ssh" none "t0" "u1").state.users "a" = none
  ∧ uuidOf (change_uuid (add_user stEmpty "a" "pw" "ssh" none "t0" "u1").state
      "a" "u2").state.users "a" = some "u2" := by
  exact ⟨rfl, rfl⟩

/-- C7 amended: at creation a record carries a uuid exactly when the service
is `"xray"`, and `ban_user`/`unban_user`/`set_quota` preserve every user's
uuid field; but `change_uuid` assigns a fresh uuid to any existing user,
regardless of the backend type it was created with. -/
theorem C7_uuid_presence :
    (∀ (st : SysState) (username password service now freshUuid : String)
        (quota : Option Int),
        hasKey st.users username = false →
        uuidOf (add_user st username password service quota now freshUuid).state.users
            username
          = (if service = "xray" then some freshUuid else none))
  ∧ (∀ (st : SysState) (username service now name : String),
        uuidOf (ban_user st username service now).state.users name
          = uuidOf st.users name)
  ∧ (∀ (st : SysState) (username service name : String),
        uuidOf (unban_user st username service).state.users name
          = uuidOf st.users name)
  ∧ (∀ (st : SysState) (username service name : String) (q : Int),
        uuidOf (set_quota st username service q).state.users name
          = uuidOf st.users name)
  ∧ (∀ (st : SysState) (username freshUuid : String),
        hasKey st.users username = true →
        uuidOf (change_uuid st username freshUuid).state.users username
          = some freshUuid) := by
  have huuid_set : ∀ (users : Users) (username : String) (u u2 : UserData),
      lookupKey users username = some u → u2.uuid = u.uuid →
      ∀ name, uuidOf (setKey users username u2) name = uuidOf users name := by
    intro users username u u2 hu huu name
    unfold uuidOf
    by_cases h : name = username
    · subst h
      rw [lookupKey_setKey_self, hu]
      simpa using huu
    · rw [lookupKey_setKey_ne users username name u2 h]
  refine ⟨?_, ?_, ?_, ?_, ?_⟩
  · intro st username password service now freshUuid quota h
    have hnone : lookupKey st.users username = none := by
      unfold hasKey at h
      cases hl : lookupKey st.users username with
      | none => rfl
      | some u => rw [hl] at h; simp at h
    simp only [add_user, h, Bool.false_eq_true, if_false]
    unfold uuidOf
    rw [lookupKey_append_of_none hnone]
    simp [lookupKey]
  · intro st username service now name
    cases hl : lookupKey st.users username with
    | none => simp [ban_user, hl, failResult]
    | some u =>
      simp only [ban_user, hl]
      exact huuid_set st.users username u
        { u with banned := true, banned_at := some now } hl rfl name
  · intro st username service name
    cases hl : lookupKey st.users username with
    | none => simp [unban_user, hl, failResult]
    | some u =>
      simp only [unban_user, hl]
      exact huuid_set st.users username u
        { u with banned := false, banned_at := none } hl rfl name
  · intro st username service name q
    cases hl : lookupKey st.users username with
    | none => simp [set_quota, hl, failResult]
    | some u =>
      simp only [set_quota, hl]
      exact huuid_set st.users username u
        { u with quota := some q } hl rfl name
  · intro st username freshUuid h
    obtain ⟨u, hu⟩ := Option.isSome_iff_exists.mp h
    simp only [change_uuid, hu]
    unfold uuidOf
    rw [lookupKey_setKey_self]

/-- C7 witness: creating `"a"` with service `"xray"` attaches the fresh
uuid. -/
theorem C7_witness :
    uuidOf (add_user stEmpty "a" "pw" "xray" none "t0" "u1").state.users "a"
      = some "u1" := by
  have h := C7_uuid_presence.1 stEmpty "a" "pw" "xray" "t0" "u1" none rfl
  simpa using h

/-! ## C9 — banned_at semantics -/

/-- C9 counterexample: `"a"` is already banned with `banned_at = "t0"`, yet
a second `ban_user` overwrites `banned_at` with the new time `"t1"` —
refuting the claim that `banned_at` is set exactly at the false→true
transition. -/
theorem C9_counterexample :
    bannedOf stBanned.users "a" = true
  ∧ bannedAtOf stBanned.users "a" = some "t0"
  ∧ bannedAtOf (ban_user stBanned "a" "l2tp" "t1").state.users "a" = some "t1" := by
  exact ⟨rfl, rfl, rfl⟩

/-- C9 amended: `ban_user` on an existing user unconditionally sets
`banned := true` and stamps `banned_at` with the current time, even when
the user is already banned; `unban_user` sets `banned := false` and clears
`banned_at`. -/
theorem C9_ban_timestamps (st : SysState) (username service now : String)
    (h : hasKey st.users username = true) :
    bannedOf (ban_user st username service now).state.users username = true
  ∧ bannedAtOf (ban_user st username service now).state.users username = some now
  ∧ bannedOf (unban_user st username service).state.users username = false
  ∧ bannedAtOf (unban_user st username service).state.users username = none := by
  obtain ⟨u, hu⟩ := Option.isSome_iff_exists.mp h
  refine ⟨?_, ?_, ?_, ?_⟩ <;>
    simp [ban_user, unban_user, hu, bannedOf, bannedAtOf, lookupKey_setKey_self]

/-- C9 witness: banning the already-banned `"a"` at `"t2"` restamps
`banned_at` to `"t2"`. -/
theorem C9_witness :
    bannedAtOf (ban_user stBanned "a" "ssh" "t2").state.users "a" = some "t2" :=
  (C9_ban_timestamps stBanned "a" "ssh" "t2" (by decide)).2.1

/-! ## C10 — set_quota frame -/

/-- C10: a successful `set_quota` rewrites only the `quota` field of the
target record (all other fields are copied), leaves every other user's
record, the stats store and the xray artifact unchanged, contacts no
backend, spawns no command, and its outcome does not depend on the
`service` argument. -/
theorem C10_set_quota_frame (st : SysState) (username service : String) (q : Int)
    (u : UserData) (hu : lookupKey st.users username = some u) :
    set_quota st username service q =
      { ok := true,
        state := { users := setKey st.users username { u with quota := some q },
                   stats := st.stats, xray := st.xray },
        xrayReports := [], sysCalls := [] }
  ∧ (∀ name, name ≠ username →
        lookupKey (set_quota st username service q).state.users name
          = lookupKey st.users name)
  ∧ (∀ service2, set_quota st username service2 q = set_quota st username service q) := by
  refine ⟨by simp [set_quota, hu], ?_, fun service2 => rfl⟩
  intro name hname
  simp only [set_quota, hu]
  exact lookupKey_setKey_ne st.users username name _ hname

/-- C10 witness: setting quota `7` for `"a"` in `stOneUser` yields exactly
the record-update result. -/
theorem C10_witness :
    set_quota stOneUser "a" "ssh" 7 =
      { ok := true,
        state := { users := setKey stOneUser.users "a" { udXray with quota := some 7 },
                   stats := stOneUser.stats, xray := stOneUser.xray },
        xrayReports := [], sysCalls := [] } :=
  (C10_set_quota_frame stOneUser "a" "ssh" 7 udXray rfl).1

/-! ## C3 — derived client list -/

/-- C3 counterexample: `exUsersMix` contains the applicable (active,
token-bearing) user `"bob"`, but because the active ssh user `"carol"`
carries no uuid, the whole generation fails (`update_xray_users` returns
failure and the artifact is left unchanged) — so the applicable user IS
dropped, refuting the claim that users of other backend types do not
affect the generated client list. -/
theorem C3_counterexample :
    (("bob", udXray) ∈ exUsersMix ∧ udXray.banned = false ∧ udXray.uuid = some "B")
  ∧ update_xray_users exCfgV exUsersMix = none := by
  refine ⟨⟨by simp [exUsersMix], rfl, rfl⟩, rfl⟩

/-- C3 amendment helper is `expectedInbound`/`specClientTokens`: the spec's
filter-and-project client list.  C3 amended: PROVIDED every non-banned
user carries an identity token, the generated artifact rewrites every
client-bearing inbound's client list to exactly the non-banned
token-bearing users, projected to their token with backend-specific
auxiliary fields, in insertion order; if some non-banned user lacks a
token, generation of the whole artifact fails instead. -/
theorem C3_generated_client_list (cfg : XrayConfig) (users : Users)
    (h : ∀ p ∈ users, p.2.banned = false → p.2.uuid.isSome = true) :
    update_xray_users cfg users
      = some { inbounds := cfg.inbounds.map (expectedInbound users) } := by
  have hg : genUuids users = some (specClientTokens users) := genUuids_eq_spec h
  have hib : ∀ ib ∈ cfg.inbounds,
      update_inbound users ib = some (expectedInbound users ib) := by
    intro ib _
    obtain ⟨pr, po, cl⟩ := ib
    cases pr <;> simp [update_inbound, expectedInbound, hg]
  rw [update_xray_users, mapOption_eq_some_of_forall hib]
  rfl

/-- C3 witness: with only the token-bearing user `"bob"` present, the vmess
inbound's client list becomes exactly `bob`'s token. -/
theorem C3_witness :
    update_xray_users exCfgV [("bob", udXray)]
      = some { inbounds := exCfgV.inbounds.map (expectedInbound [("bob", udXray)]) } :=
  C3_generated_client_list exCfgV [("bob", udXray)] (by decide)

/-! ## C8 — idempotent regeneration -/

/-- `update_inbound` is idempotent on its successful results. -/
theorem update_inbound_idem {users : Users} {ib ib2 : Inbound}
    (h : update_inbound users ib = some ib2) :
    update_inbound users ib2 = some ib2 := by
  obtain ⟨pr, po, cl⟩ := ib
  cases hg : genUuids users with
  | none =>
    cases pr with
    | otherTag s =>
      simp [update_inbound] at h
      rw [← h]
      simp [update_inbound]
    | vmess => simp [update_inbound, hg] at h
    | vless => simp [update_inbound, hg] at h
    | trojan => simp [update_inbound, hg] at h
  | some ids =>
    cases pr with
    | otherTag s =>
      simp [update_inbound] at h
      rw [← h]
      simp [update_inbound]
    | vmess =>
      simp [update_inbound, hg] at h
      rw [← h]
      simp [update_inbound, hg]
    | vless =>
      simp [update_inbound, hg] at h
      rw [← h]
      simp [update_inbound, hg]
    | trojan =>
      simp [update_inbound, hg] at h
      rw [← h]
      simp [update_inbound, hg]

/-- C8: regenerating the xray artifact from an unchanged user mapping is
idempotent — applying `update_xray_users` to its own successful output
yields that output again byte-for-byte (the document, hence its
serialization, is identical). -/
theorem C8_idempotent_regeneration (cfg cfg2 : XrayConfig) (users : Users)
    (h : update_xray_users cfg users = some cfg2) :
    update_xray_users cfg2 users = some cfg2 := by
  rw [update_xray_users] at h
  cases hm : mapOption (update_inbound users) cfg.inbounds with
  | none => rw [hm] at h; simp at h
  | some ibs =>
    rw [hm] at h
    simp at h
    have h2 : mapOption (update_inbound users) ibs = some ibs :=
      mapOption_idem (fun a b hab => update_inbound_idem hab) hm
    rw [update_xray_users, ← h]
    simp [h2]

/-- C8 witness: regenerating from `exCfgV` with user `"bob"` gives the
one-client document, and regenerating from that document gives it again. -/
theorem C8_witness :
    update_xray_users
      { inbounds := [{ protocol := XProtocol.vmess, port := 443,
                       clients := [Client.vmess "B" 0] }] }
      [("bob", udXray)]
      = some { inbounds := [{ protocol := XProtocol.vmess, port := 443,
                              clients := [Client.vmess "B" 0] }] } :=
  C8_idempotent_regeneration exCfgV
    { inbounds := [{ protocol := XProtocol.vmess, port := 443,
                     clients := [Client.vmess "B" 0] }] }
    [("bob", udXray)] (by decide)

/-! ## C4 — ban/unban reflected in the artifact -/

/-- C4: for an existing user `u` whose record carries the token `tok`, and
whose token no other user carries: if the backend apply inside
`ban_user(u, "xray")` reports success, the regenerated artifact's
client-bearing inbounds do not contain `tok`; and if the apply inside a
subsequent `unban_user(u, "xray")` reports success, they contain `tok`
again. -/
theorem ban_user_eq (st : SysState) (u now : String) (ud : UserData)
    (hu : lookupKey st.users u = some ud) :
    ban_user st u "xray" now =
      { ok := true,
        state := { users := setKey st.users u { ud with banned := true, banned_at := some now },
                   stats := st.stats,
                   xray := (runXray st (setKey st.users u
                     { ud with banned := true, banned_at := some now })).1 },
        xrayReports := (runXray st (setKey st.users u
          { ud with banned := true, banned_at := some now })).2,
        sysCalls := [] } := by
  simp [ban_user, hu]

theorem unban_user_eq (st : SysState) (u : String) (ud : UserData)
    (hu : lookupKey st.users u = some ud) :
    unban_user st u "xray" =
      { ok := true,
        state := { users := setKey st.users u { ud with banned := false, banned_at := none },
                   stats := st.stats,
                   xray := (runXray st (setKey st.users u
                     { ud with banned := false, banned_at := none })).1 },
        xrayReports := (runXray st (setKey st.users u
          { ud with banned := false, banned_at := none })).2,
        sysCalls := [] } := by
  simp [unban_user, hu]

theorem C4_ban_unban_token (st : SysState) (u tok now : String) (ud : UserData)
    (hnd : (st.users.map Prod.fst).Nodup)
    (hu : lookupKey st.users u = some ud)
    (htok : ud.uuid = some tok)
    (hothers : ∀ p ∈ st.users, p.1 ≠ u → p.2.uuid ≠ some tok) :
    ((ban_user st u "xray" now).xrayReports = [true] →
      ∀ ib ∈ (ban_user st u "xray" now).state.xray.inbounds,
        ib.protocol.isClientBearing = true → tok ∉ inboundTokens ib)
  ∧ ((unban_user (ban_user st u "xray" now).state u "xray").xrayReports = [true] →
      ∀ ib ∈ (unban_user (ban_user st u "xray" now).state u "xray").state.xray.inbounds,
        ib.protocol.isClientBearing = true → tok ∈ inboundTokens ib) := by
  have hban := ban_user_eq st u now ud hu
  constructor
  · intro hrep ib hib hcb
    rw [hban] at hrep hib
    have hx := runXray_reports_true hrep
    have htoks : inboundTokens ib
        = specClientTokens (setKey st.users u { ud with banned := true, banned_at := some now }) :=
      tokens_after_success hx hib hcb
    rw [htoks, mem_specClientTokens]
    rintro ⟨p, hp, hpb, hpu⟩
    rcases mem_setKey_of_nodup hnd hp with h1 | ⟨h2, h3⟩
    · rw [h1] at hpb
      simp at hpb
    · exact hothers p h2 h3 hpu
  · intro hrep ib hib hcb
    have hud1 : lookupKey (ban_user st u "xray" now).state.users u
        = some { ud with banned := true, banned_at := some now } := by
      rw [hban]
      exact lookupKey_setKey_self st.users u _
    have hunban := unban_user_eq (ban_user st u "xray" now).state u
      { ud with banned := true, banned_at := some now } hud1
    rw [hunban] at hrep hib
    have hx := runXray_reports_true hrep
    have htoks : inboundTokens ib
        = specClientTokens (setKey (ban_user st u "xray" now).state.users u
            { ud with banned := false, banned_at := none }) :=
      tokens_after_success hx hib hcb
    rw [htoks, mem_specClientTokens]
    refine ⟨(u, { ud with banned := false, banned_at := none }), ?_, rfl, ?_⟩
    · exact self_mem_setKey _ u _
    · simpa using htok

/-- C4 witness: banning then unbanning `"bob"` regenerates the vmess client
list containing `"bob"`'s token again. -/
theorem C4_witness :
    "B" ∈ inboundTokens { protocol := XProtocol.vmess, port := 443,
                          clients := [Client.vmess "B" 0] } :=
  (C4_ban_unban_token stBob "bob" "B" "t1" udXray (by decide) rfl rfl (by decide)).2
    rfl { protocol := XProtocol.vmess, port := 443, clients := [Client.vmess "B" 0] }
    (by decide) rfl

end Box
